import Mathlib

/-
Shallow embedding of the Bunyan_AI flashcard platform, covering the two modules
the verified claims concern:

* src/core/analytics_dashboard.py, class SmartReviewScheduler
  (calculate_next_review, get_cards_due_for_review, suggest_optimal_study_time)
* src/core/personalization.py, class FlashcardPersonalizer
  (_personalize_cards and its card transforms, _apply_spaced_repetition_order,
   _apply_difficulty_progression, update_user_profile)

Conventions of the embedding:
* Python `float` values that hold accuracies/averages are modelled as rationals.
* Python strings are modelled as `String` except where character-level slicing
  matters (card fronts/backs), where `List Char` mirrors Python's
  code-point-indexed `len`/slicing exactly.
* A dict field that the code reads with `d.get(k, default)` or `d[k]` is an
  `Option` field: `none` is an absent key.  A field parsed by
  `datetime.fromisoformat` also distinguishes a malformed string (on which
  Python raises ValueError) from a well-formed one.
* Code that can raise (KeyError, ValueError, IndexError) is embedded in
  `Except Unit` / `Option`; `Python list.sort(key=..., reverse=...)` is a
  stable sort and is embedded as `List.insertionSort` with the corresponding
  total preorder (stable sorts under a total preorder have a unique result).
-/

/-! ### Generic helpers -/

/-- Python slice `l[-n:]` : the last `n` elements (the whole list when it is
shorter than `n`). -/
def take_last {α : Type} (n : Nat) (l : List α) : List α :=
  l.drop (l.length - n)

theorem take_last_length_le {α : Type} (n : Nat) (l : List α) :
    (take_last n l).length ≤ n := by
  simp [take_last]
  omega

/-- Python list indexing `l[i]` : negative indices count from the end, and an
index out of range raises IndexError (modelled as `none`). -/
def pyIndex {α : Type} (l : List α) (i : Int) : Option α :=
  if 0 ≤ i then l.get? i.toNat
  else if 0 ≤ i + l.length then l.get? (i + l.length).toNat
  else none

/-- Descending comparison by an integer key; with `List.insertionSort` this is
exactly Python's stable `list.sort(key=k, reverse=True)`. -/
def desc_by {α : Type} (k : α → Int) : α → α → Prop := fun a b => k b ≤ k a

/-- Ascending comparison by an integer key; with `List.insertionSort` this is
exactly Python's stable `list.sort(key=k)` / `sorted(..., key=k)`. -/
def asc_by {α : Type} (k : α → Int) : α → α → Prop := fun a b => k a ≤ k b

instance {α : Type} (k : α → Int) : IsTotal α (desc_by k) :=
  ⟨fun a b => le_total (k b) (k a)⟩

instance {α : Type} (k : α → Int) : IsTrans α (desc_by k) :=
  ⟨fun _ _ _ h1 h2 => le_trans h2 h1⟩

instance {α : Type} (k : α → Int) : DecidableRel (desc_by k) :=
  fun a b => Int.decLe (k b) (k a)

instance {α : Type} (k : α → Int) : IsTotal α (asc_by k) :=
  ⟨fun a b => le_total (k a) (k b)⟩

instance {α : Type} (k : α → Int) : IsTrans α (asc_by k) :=
  ⟨fun _ _ _ h1 h2 => le_trans h1 h2⟩

instance {α : Type} (k : α → Int) : DecidableRel (asc_by k) :=
  fun a b => Int.decLe (k a) (k b)

instance {ε α : Type} [DecidableEq ε] [DecidableEq α] :
    DecidableEq (Except ε α) := fun x y =>
  match x, y with
  | .ok a, .ok b =>
    if h : a = b then isTrue (by rw [h])
    else isFalse (by intro he; cases he; exact h rfl)
  | .error a, .error b =>
    if h : a = b then isTrue (by rw [h])
    else isFalse (by intro he; cases he; exact h rfl)
  | .ok _, .error _ => isFalse (by intro h; cases h)
  | .error _, .ok _ => isFalse (by intro h; cases h)

/-! ### SmartReviewScheduler: data model

A performance-history entry is a dict; the scheduler reads the keys
`accuracy` (with default 0.5), `interval_index` (with default 0), and
`date` / `duration` (read with `[]`, raising KeyError when missing). -/

/-- An ISO date string field as the scheduler consumes it: either it does not
parse (`datetime.fromisoformat` raises ValueError) or it denotes a time of day,
of which only the hour component is used. -/
inductive DateField : Type
  | malformed : DateField
  | hourOf : Nat → DateField
deriving DecidableEq

/-- One entry of a performance history passed to the scheduler. -/
structure SchedEntry : Type where
  accuracy : Option ℚ
  interval_index : Option Int
  date : Option DateField
  duration : Option Int
deriving DecidableEq

/-- Field `spaced_repetition_intervals` of SmartReviewScheduler (days). -/
def spaced_repetition_intervals : List Nat := [1, 3, 7, 14, 30, 90]

/-- Index selection of `calculate_next_review`: from the latest entry, take
`accuracy` (default 0.5) and `interval_index` (default 0); advance clamped to
the last table position when accuracy ≥ 0.9, keep when ≥ 0.7, else regress
clamped to 0. -/
def adjusted_index (e : SchedEntry) : Int :=
  let a := e.accuracy.getD (1/2)
  let i := e.interval_index.getD 0
  if 9/10 ≤ a then min (spaced_repetition_intervals.length - 1 : Int) (i + 1)
  else if 7/10 ≤ a then i
  else max 0 (i - 1)

/-- The `interval_days` value `calculate_next_review` computes: 1 day for an
empty history, otherwise the interval table indexed (Python semantics) by the
adjusted index.  `none` models the IndexError raised when the stored
`interval_index` puts the adjusted index out of the table's range.  The code
afterwards adds a randomization of -1, 0 or 1 days and clamps below at 1. -/
def calculate_next_review_days (history : List SchedEntry) : Option Nat :=
  match history.getLast? with
  | none => some 1
  | some latest => pyIndex spaced_repetition_intervals (adjusted_index latest)

/-- Full day interval of `calculate_next_review`, parametrized by the
randomization summand `r` (drawn from {-1, 0, 1} at runtime):
`max(1, interval_days + r)`. -/
def calculate_next_review (history : List SchedEntry) (r : Int) : Option Int :=
  (calculate_next_review_days history).map (fun days => max 1 ((days : Int) + r))

/-! ### get_cards_due_for_review -/

/-- A `next_review` field: a stored ISO timestamp either fails to parse or
denotes an absolute time comparable with the current time. -/
inductive NRField : Type
  | malformed : NRField
  | ts : Int → NRField
deriving DecidableEq

/-- A card as read by `get_cards_due_for_review`: only the `next_review` key is
inspected; `cid` stands for the card's remaining content. -/
structure RCard : Type where
  cid : Nat
  next_review : Option NRField
deriving DecidableEq

/-- Loop of `get_cards_due_for_review` (the `user_id` argument is unused by the
code): a card with no `next_review` is due; a parseable `next_review` at or
before `now` is due; a malformed one raises ValueError inside the loop. -/
def get_cards_due_for_review (now : Int) : List RCard → Except Unit (List RCard)
  | [] => .ok []
  | c :: cs =>
    match c.next_review with
    | none => (get_cards_due_for_review now cs).map (fun l => c :: l)
    | some .malformed => .error ()
    | some (.ts t) =>
      if t ≤ now then (get_cards_due_for_review now cs).map (fun l => c :: l)
      else get_cards_due_for_review now cs

/-- Due predicate implied by the loop, for well-formed cards. -/
def is_due (now : Int) (c : RCard) : Bool :=
  match c.next_review with
  | none => true
  | some .malformed => false
  | some (.ts t) => decide (t ≤ now)

theorem get_cards_due_eq_filter (now : Int) (cards : List RCard)
    (h : ∀ c ∈ cards, c.next_review ≠ some .malformed) :
    get_cards_due_for_review now cards = .ok (cards.filter (is_due now)) := by
  induction cards with
  | nil => rfl
  | cons c cs ih =>
    have hc := h c (List.mem_cons_self c cs)
    have hcs : ∀ x ∈ cs, x.next_review ≠ some .malformed :=
      fun x hx => h x (List.mem_cons_of_mem c hx)
    cases hnr : c.next_review with
    | none =>
      simp [get_cards_due_for_review, hnr, ih hcs, List.filter, is_due, Except.map]
    | some nr =>
      cases nr with
      | malformed => exact absurd hnr hc
      | ts t =>
        by_cases ht : t ≤ now
        · simp [get_cards_due_for_review, hnr, ht, ih hcs, List.filter, is_due, Except.map]
        · simp [get_cards_due_for_review, hnr, ht, ih hcs, List.filter, is_due, Except.map]

/-! ### suggest_optimal_study_time -/

/-- Return value of `suggest_optimal_study_time`: the recommended time is the
string `f"{hour:02d}:00"`, modelled by its hour; plus a duration in minutes and
a confidence.  The `reasoning` string is presentation only and is omitted. -/
structure StudySuggestion : Type where
  recommended_hour : Nat
  recommended_duration : Int
  confidence : ℚ
deriving DecidableEq

/-- Mean of a list of rationals, as `np.mean` computes it on a non-empty list. -/
def np_mean (l : List ℚ) : ℚ := l.sum / (l.length : ℚ)

/-- Reading `session['date']` and `session['accuracy']` for the hour-bucketing
loop: a missing key raises KeyError and a malformed date raises ValueError. -/
def session_hour_acc (e : SchedEntry) : Except Unit (Nat × ℚ) :=
  match e.date with
  | none => .error ()
  | some .malformed => .error ()
  | some (.hourOf h) =>
    match e.accuracy with
    | none => .error ()
    | some a => .ok (h, a)

/-- Append an accuracy to the bucket of its hour, creating the bucket at the
end on first encounter (Python dict insertion order). -/
def add_to_bucket (b : List (Nat × List ℚ)) (h : Nat) (a : ℚ) :
    List (Nat × List ℚ) :=
  match b with
  | [] => [(h, [a])]
  | (h', accs) :: rest =>
    if h' = h then (h', accs ++ [a]) :: rest
    else (h', accs) :: add_to_bucket rest h a

/-- The `time_performance` defaultdict: hour buckets in first-encounter order. -/
def time_performance (l : List (Nat × ℚ)) : List (Nat × List ℚ) :=
  l.foldl (fun b p => add_to_bucket b p.1 p.2) []

/-- One step of the best-hour loop: replace the current best only on a strictly
larger average. -/
def best_step (b : Nat × ℚ) (p : Nat × ℚ) : Nat × ℚ :=
  if b.2 < p.2 then p else b

/-- The best-hour loop of `suggest_optimal_study_time`, starting from the
default hour 9 with best accuracy 0. -/
def best_time (buckets : List (Nat × List ℚ)) : Nat × ℚ :=
  buckets.foldl (fun b p => best_step b (p.1, np_mean p.2)) (9, 0)

/-- Hours with their mean accuracies, in first-encounter order. -/
def hour_means (pairs : List (Nat × ℚ)) : List (Nat × ℚ) :=
  (time_performance pairs).map (fun b => (b.1, np_mean b.2))

/-- The value `int(np.median(l))` for a non-empty integer list: the middle of
the sorted list, or for an even length the average of the two middle elements
truncated toward zero (Python `int()` on the float median). -/
def int_trunc_median (l : List Int) : Int :=
  let s := List.insertionSort (asc_by (fun x => x)) l
  if l.length % 2 = 1 then s.getD (l.length / 2) 0
  else Int.tdiv (s.getD (l.length / 2 - 1) 0 + s.getD (l.length / 2) 0) 2

/-- Reading `session['duration']`: KeyError when missing. -/
def session_duration (e : SchedEntry) : Except Unit Int :=
  match e.duration with
  | none => .error ()
  | some d => .ok d

/-- The function `suggest_optimal_study_time` (its `user_id` argument is
unused): default recommendation on an empty history; otherwise bucket sessions
by hour, pick the hour of the strictly best mean accuracy (default 9), take the
truncated median duration, and confidence `min(0.9, n/10)`. -/
def suggest_optimal_study_time (hist : List SchedEntry) :
    Except Unit StudySuggestion :=
  match hist with
  | [] => .ok ⟨9, 30, 1/2⟩
  | _ :: _ => do
    let pairs ← hist.mapM session_hour_acc
    let best := best_time (time_performance pairs)
    let durations ← hist.mapM session_duration
    .ok ⟨best.1, int_trunc_median durations,
         min (9/10) ((hist.length : ℚ) / 10)⟩

/-- Characterization of the best-hour fold: either no entry strictly beats the
starting accuracy and the start is returned, or the result is the first entry
of the list attaining the maximum, every earlier entry being strictly below it
and every later entry at most it. -/
theorem foldl_best_step_spec (l : List (Nat × ℚ)) : ∀ b : Nat × ℚ,
    (l.foldl best_step b = b ∧ ∀ p ∈ l, p.2 ≤ b.2) ∨
    (∃ l1 l2, l = l1 ++ (l.foldl best_step b) :: l2 ∧
      b.2 < (l.foldl best_step b).2 ∧
      (∀ q ∈ l1, q.2 < (l.foldl best_step b).2) ∧
      (∀ q ∈ l2, q.2 ≤ (l.foldl best_step b).2)) := by
  induction l with
  | nil => intro b; exact Or.inl ⟨rfl, by simp⟩
  | cons p l ih =>
    intro b
    by_cases hb : b.2 < p.2
    · have hstep : best_step b p = p := by simp [best_step, hb]
      have hfold : (p :: l).foldl best_step b = l.foldl best_step p := by
        simp [List.foldl_cons, hstep]
      rcases ih p with ⟨heq, hall⟩ | ⟨l1, l2, hsplit, hlt, hbefore, hafter⟩
      · refine Or.inr ⟨[], l, ?_, ?_, ?_, ?_⟩
        · simp [hfold, heq]
        · rw [hfold, heq]; exact hb
        · simp
        · rw [hfold, heq]; exact hall
      · refine Or.inr ⟨p :: l1, l2, ?_, ?_, ?_, ?_⟩
        · rw [hfold, List.cons_append]
          exact congrArg (List.cons p) hsplit
        · rw [hfold]; exact lt_trans hb hlt
        · intro q hq
          rw [hfold]
          rcases List.mem_cons.mp hq with rfl | hq
          · exact hlt
          · exact hbefore q hq
        · intro q hq; rw [hfold]; exact hafter q hq
    · have hstep : best_step b p = b := by simp [best_step, hb]
      have hfold : (p :: l).foldl best_step b = l.foldl best_step b := by
        simp [List.foldl_cons, hstep]
      rcases ih b with ⟨heq, hall⟩ | ⟨l1, l2, hsplit, hlt, hbefore, hafter⟩
      · refine Or.inl ⟨by rw [hfold, heq], ?_⟩
        intro q hq
        rcases List.mem_cons.mp hq with hq | hq
        · subst hq; exact le_of_not_lt hb
        · exact hall q hq
      · refine Or.inr ⟨p :: l1, l2, ?_, ?_, ?_, ?_⟩
        · rw [hfold, List.cons_append]
          exact congrArg (List.cons p) hsplit
        · rw [hfold]; exact hlt
        · intro q hq
          rw [hfold]
          rcases List.mem_cons.mp hq with rfl | hq
          · exact lt_of_le_of_lt (le_of_not_lt hb) hlt
          · exact hbefore q hq
        · intro q hq; rw [hfold]; exact hafter q hq

theorem best_time_eq_fold (pairs : List (Nat × ℚ)) :
    best_time (time_performance pairs) =
      (hour_means pairs).foldl best_step (9, 0) := by
  simp [best_time, hour_means, List.foldl_map]

/-! ### Scheduler helper lemmas -/

theorem pyIndex_natCast {α : Type} (l : List α) (n : Nat) :
    pyIndex l (n : Int) = l.get? n := by
  simp [pyIndex]

theorem adjusted_index_range (e : SchedEntry) (i : Int)
    (hi : e.interval_index = some i) (h0 : 0 ≤ i) (h5 : i ≤ 5) :
    0 ≤ adjusted_index e ∧ adjusted_index e ≤ 5 := by
  unfold adjusted_index
  rw [hi]
  have hlen : spaced_repetition_intervals.length = 6 := rfl
  rw [hlen]
  simp only [Option.getD_some]
  split_ifs <;> constructor <;> omega

theorem pyIndex_intervals_some (j : Int) (h0 : 0 ≤ j) (h5 : j ≤ 5) :
    ∃ d, pyIndex spaced_repetition_intervals j = some d := by
  rw [pyIndex, if_pos h0]
  have hlt : j.toNat < spaced_repetition_intervals.length := by
    simp [spaced_repetition_intervals]; omega
  exact ⟨_, List.get?_eq_get hlt⟩

/-- C1: for a non-empty history whose latest record carries accuracy `a` and
interval index `i` (a table position), the selected index is min(i+1, 5) when
a ≥ 0.9, stays i when 0.7 ≤ a < 0.9, and is max(0, i-1) when a < 0.7 — `i - 1`
below is natural subtraction — and the produced day count is the entry of the
fixed table {1,3,7,14,30,90} at that index. -/
theorem calculate_next_review_index_selection
    (history : List SchedEntry) (e : SchedEntry) (i : Nat) (a : ℚ)
    (hlast : history.getLast? = some e)
    (hi : e.interval_index = some (i : Int)) (hi5 : i ≤ 5)
    (ha : e.accuracy = some a) :
    (9/10 ≤ a → calculate_next_review_days history =
       spaced_repetition_intervals.get? (min (i + 1) 5)) ∧
    (7/10 ≤ a → a < 9/10 → calculate_next_review_days history =
       spaced_repetition_intervals.get? i) ∧
    (a < 7/10 → calculate_next_review_days history =
       spaced_repetition_intervals.get? (i - 1)) := by
  have hcalc : calculate_next_review_days history =
      pyIndex spaced_repetition_intervals (adjusted_index e) := by
    unfold calculate_next_review_days
    rw [hlast]
  have hidx : adjusted_index e =
      if 9/10 ≤ a then min ((spaced_repetition_intervals.length : Int) - 1) (i + 1)
      else if 7/10 ≤ a then (i : Int)
      else max 0 ((i : Int) - 1) := by
    unfold adjusted_index
    rw [hi, ha]
    rfl
  refine ⟨?_, ?_, ?_⟩
  · intro h9
    rw [hcalc, hidx, if_pos h9]
    have harg : min ((spaced_repetition_intervals.length : Int) - 1) ((i : Int) + 1) =
        ((min (i + 1) 5 : Nat) : Int) := by
      simp [spaced_repetition_intervals]
      omega
    rw [harg, pyIndex_natCast]
  · intro h7 h9
    rw [hcalc, hidx, if_neg (not_le.mpr h9), if_pos h7, pyIndex_natCast]
  · intro h7
    have h9 : ¬ 9/10 ≤ a := not_le.mpr (lt_trans h7 (by norm_num))
    rw [hcalc, hidx, if_neg h9, if_neg (not_le.mpr h7)]
    have harg : max 0 ((i : Int) - 1) = ((i - 1 : Nat) : Int) := by omega
    rw [harg, pyIndex_natCast]

/-- Witness for C1 at a concrete input: one-entry history, accuracy 0.95,
interval index 2. -/
theorem calculate_next_review_index_selection_witness :
    (9/10 ≤ (19/20 : ℚ) → calculate_next_review_days
       [⟨some (19/20), some 2, none, none⟩] =
       spaced_repetition_intervals.get? (min (2 + 1) 5)) ∧
    (7/10 ≤ (19/20 : ℚ) → (19/20 : ℚ) < 9/10 → calculate_next_review_days
       [⟨some (19/20), some 2, none, none⟩] =
       spaced_repetition_intervals.get? 2) ∧
    ((19/20 : ℚ) < 7/10 → calculate_next_review_days
       [⟨some (19/20), some 2, none, none⟩] =
       spaced_repetition_intervals.get? (2 - 1)) :=
  calculate_next_review_index_selection
    [⟨some (19/20), some 2, none, none⟩] ⟨some (19/20), some 2, none, none⟩
    2 (19/20) rfl rfl (by decide) rfl

/-- C2 counterexample: a history entry lacking the optional `accuracy` field
makes `suggest_optimal_study_time` raise KeyError instead of substituting the
documented default — so not every operation tolerates missing optional fields. -/
theorem suggest_missing_accuracy_error :
    suggest_optimal_study_time
      [{ accuracy := none, interval_index := none,
         date := some (.hourOf 10), duration := some 20 }] = .error () := rfl

/-- C2 amended: `calculate_next_review` substitutes the documented defaults and
returns a (≥ 1 day) result whenever the stored interval index is a table
position; `get_cards_due_for_review` treats a missing next-review timestamp as
due and rejects nothing when the stored timestamps parse; but
`suggest_optimal_study_time` requires `date`, `accuracy` and `duration` and
fails on an entry lacking one (here `duration`). -/
theorem scheduler_defaults_and_required_fields
    (history : List SchedEntry) (e : SchedEntry) (i : Int) (r : Int)
    (now : Int) (cards : List RCard)
    (hlast : history.getLast? = some e)
    (hi : e.interval_index = some i) (h0 : 0 ≤ i) (h5 : i ≤ 5)
    (hwf : ∀ c ∈ cards, c.next_review ≠ some .malformed) :
    (∃ d, 1 ≤ d ∧ calculate_next_review history r = some d) ∧
    (adjusted_index { e with accuracy := none } =
       adjusted_index { e with accuracy := some (1/2) }) ∧
    (∃ l, get_cards_due_for_review now cards = .ok l ∧
       ∀ c ∈ cards, c.next_review = none → c ∈ l) ∧
    (suggest_optimal_study_time
       [{ accuracy := some 1, interval_index := none,
          date := some (.hourOf 10), duration := none }] = .error ()) := by
  refine ⟨?_, rfl, ?_, rfl⟩
  · obtain ⟨hr0, hr5⟩ := adjusted_index_range e i hi h0 h5
    obtain ⟨d, hd⟩ := pyIndex_intervals_some (adjusted_index e) hr0 hr5
    refine ⟨max 1 ((d : Int) + r), le_max_left _ _, ?_⟩
    have hdays : calculate_next_review_days history = some d := by
      unfold calculate_next_review_days
      rw [hlast]
      exact hd
    unfold calculate_next_review
    rw [hdays]
    rfl
  · refine ⟨cards.filter (is_due now), get_cards_due_eq_filter now cards hwf, ?_⟩
    intro c hc hnone
    exact List.mem_filter.mpr ⟨hc, by simp [is_due, hnone]⟩

/-- Witness for the amended C2 at concrete inputs. -/
theorem scheduler_defaults_and_required_fields_witness :
    (∃ d, 1 ≤ d ∧
       calculate_next_review [⟨none, some 0, none, none⟩] 0 = some d) ∧
    (adjusted_index { (⟨none, some 0, none, none⟩ : SchedEntry) with
        accuracy := none } =
       adjusted_index { (⟨none, some 0, none, none⟩ : SchedEntry) with
        accuracy := some (1/2) }) ∧
    (∃ l, get_cards_due_for_review 0 [⟨0, none⟩] = .ok l ∧
       ∀ c ∈ [(⟨0, none⟩ : RCard)], c.next_review = none → c ∈ l) ∧
    (suggest_optimal_study_time
       [{ accuracy := some 1, interval_index := none,
          date := some (.hourOf 10), duration := none }] = .error ()) :=
  scheduler_defaults_and_required_fields
    [⟨none, some 0, none, none⟩] ⟨none, some 0, none, none⟩ 0 0 0
    [⟨0, none⟩] rfl rfl (by decide) (by decide) (by decide)

/-- C5 counterexample: a single session at hour 14 with accuracy 0 — hour 14 is
the (only) hour, hence the hour of highest mean accuracy, yet the code returns
the default hour 9 because no average strictly exceeds the initial best of 0. -/
theorem suggest_zero_accuracy_default_hour :
    suggest_optimal_study_time
      [{ accuracy := some 0, interval_index := none,
         date := some (.hourOf 14), duration := some 10 }] =
      .ok ⟨9, 10, 1/10⟩ ∧
    hour_means [(14, 0)] = [(14, 0)] := by
  constructor
  · simp only [suggest_optimal_study_time, List.mapM, List.mapM.loop,
      session_hour_acc, session_duration, time_performance, add_to_bucket,
      best_time, best_step, np_mean, int_trunc_median, hour_means,
      List.foldl, List.reverse, List.reverseAux, List.insertionSort,
      List.orderedInsert, asc_by, Bind.bind, Except.bind, pure, Except.pure]
    norm_num
  · simp only [hour_means, time_performance, add_to_bucket, np_mean,
      List.foldl, List.map]
    norm_num

/-- C5 amended: `suggest_optimal_study_time` on a non-empty readable history
returns confidence min(0.9, n/10) and the truncated median duration; the
returned hour is the first-encountered hour of strictly maximal mean accuracy
whenever some hour has positive mean accuracy, and the default hour 9 when no
hour's mean accuracy is positive. -/
theorem suggest_characterization
    (hist : List SchedEntry) (pairs : List (Nat × ℚ)) (durs : List Int)
    (res : StudySuggestion)
    (hne : hist ≠ [])
    (hpairs : hist.mapM session_hour_acc = .ok pairs)
    (hdurs : hist.mapM session_duration = .ok durs)
    (hres : suggest_optimal_study_time hist = .ok res) :
    res.confidence = min (9/10) ((hist.length : ℚ) / 10) ∧
    res.recommended_duration = int_trunc_median durs ∧
    ((∀ p ∈ hour_means pairs, p.2 ≤ 0) → res.recommended_hour = 9) ∧
    ((∃ p ∈ hour_means pairs, 0 < p.2) →
      ∃ l1 l2 m, hour_means pairs = l1 ++ (res.recommended_hour, m) :: l2 ∧
        (∀ q ∈ l1, q.2 < m) ∧ (∀ q ∈ l2, q.2 ≤ m)) := by
  have hval : suggest_optimal_study_time hist =
      .ok ⟨(best_time (time_performance pairs)).1, int_trunc_median durs,
           min (9/10) ((hist.length : ℚ) / 10)⟩ := by
    cases hist with
    | nil => exact absurd rfl hne
    | cons h t =>
      simp only [suggest_optimal_study_time]
      rw [hpairs, hdurs]
      rfl
  rw [hval] at hres
  have hr : res = ⟨(best_time (time_performance pairs)).1, int_trunc_median durs,
      min (9/10) ((hist.length : ℚ) / 10)⟩ := by
    cases hres
    rfl
  subst hr
  simp only [best_time_eq_fold]
  have hspec := foldl_best_step_spec (hour_means pairs) (9, 0)
  set L := hour_means pairs with hL
  set r := L.foldl best_step (9, 0) with hrdef
  refine ⟨trivial, trivial, ?_, ?_⟩
  · intro hall
    rcases hspec with ⟨heq, _⟩ | ⟨l1, l2, hsplit, hlt, _, _⟩
    · simp only [heq]
    · exfalso
      have hmem : r ∈ L := by
        rw [hsplit]
        exact List.mem_append_right l1 (List.mem_cons_self _ _)
      exact absurd (hall _ hmem) (not_le.mpr hlt)
  · rintro ⟨p, hp, hppos⟩
    rcases hspec with ⟨_, hall⟩ | ⟨l1, l2, hsplit, _, hbefore, hafter⟩
    · exact absurd (hall p hp) (not_le.mpr hppos)
    · exact ⟨l1, l2, r.2, hsplit, hbefore, hafter⟩

/-- Witness for the amended C5: two sessions, hours 14 and 16 with accuracies
0.5 and 0.75, durations 20 and 30. -/
theorem suggest_characterization_witness :
    ((⟨16, 25, 1/5⟩ : StudySuggestion).confidence =
       min (9/10) ((([⟨some (1/2), none, some (.hourOf 14), some 20⟩,
         ⟨some (3/4), none, some (.hourOf 16), some 30⟩] :
           List SchedEntry).length : ℚ) / 10)) ∧
    ((⟨16, 25, 1/5⟩ : StudySuggestion).recommended_duration =
       int_trunc_median [20, 30]) ∧
    ((∀ p ∈ hour_means [(14, 1/2), (16, 3/4)], p.2 ≤ 0) →
       (⟨16, 25, 1/5⟩ : StudySuggestion).recommended_hour = 9) ∧
    ((∃ p ∈ hour_means [(14, 1/2), (16, 3/4)], 0 < p.2) →
      ∃ l1 l2 m, hour_means [(14, 1/2), (16, 3/4)] =
          l1 ++ ((⟨16, 25, 1/5⟩ : StudySuggestion).recommended_hour, m) :: l2 ∧
        (∀ q ∈ l1, q.2 < m) ∧ (∀ q ∈ l2, q.2 ≤ m)) :=
  suggest_characterization
    [⟨some (1/2), none, some (.hourOf 14), some 20⟩,
     ⟨some (3/4), none, some (.hourOf 16), some 30⟩]
    [(14, 1/2), (16, 3/4)] [20, 30] ⟨16, 25, 1/5⟩
    (by decide) rfl rfl
    (by
      simp only [suggest_optimal_study_time, List.mapM, List.mapM.loop,
        session_hour_acc, session_duration, time_performance, add_to_bucket,
        best_time, best_step, np_mean, int_trunc_median,
        List.foldl, List.reverse, List.reverseAux, List.insertionSort,
        List.orderedInsert, asc_by, Bind.bind, Except.bind, pure, Except.pure]
      norm_num
      decide)

/-- C7: when every stored next-review timestamp parses,
`get_cards_due_for_review` returns exactly the cards with no next-review
timestamp or one at or before the current time, in input order. -/
theorem get_cards_due_returns_due_subset (now : Int) (cards : List RCard)
    (h : ∀ c ∈ cards, c.next_review ≠ some .malformed) :
    get_cards_due_for_review now cards = .ok (cards.filter (is_due now)) :=
  get_cards_due_eq_filter now cards h

/-- Witness for C7: three cards — no timestamp, due timestamp, future
timestamp — at time 10. -/
theorem get_cards_due_returns_due_subset_witness :
    get_cards_due_for_review 10
      [⟨0, none⟩, ⟨1, some (.ts 5)⟩, ⟨2, some (.ts 15)⟩] =
      .ok ([(⟨0, none⟩ : RCard), ⟨1, some (.ts 5)⟩, ⟨2, some (.ts 15)⟩].filter
        (is_due 10)) :=
  get_cards_due_returns_due_subset 10
    [⟨0, none⟩, ⟨1, some (.ts 5)⟩, ⟨2, some (.ts 15)⟩] (by decide)

/-! ### FlashcardPersonalizer: data model

Card fronts and backs are modelled as `List Char`, matching Python's
code-point based `len` and slicing. -/

/-- Enum `StudyMode` of personalization.py. -/
inductive StudyMode : Type
  | basic_educational
  | exam_prep
  | challenge
  | fast_review
  | spaced_repetition
deriving DecidableEq

/-- Enum `CardStyle` of personalization.py. -/
inductive CardStyle : Type
  | definition_based
  | multiple_choice
  | cloze_deletion
  | reverse_questioning
  | scenario_based
deriving DecidableEq

/-- The `mode_settings` dict `_personalize_cards` attaches to each card. -/
structure ModeSettings : Type where
  time_limit : Int
  show_hints : Bool
  allow_retries : Bool
  feedback_detail : String
deriving DecidableEq

/-- The four mode-settings values read out of `mode_configurations[mode]`
(every configuration carries all four keys, so the `.get` defaults of the
code never fire). -/
def mode_settings_of (m : StudyMode) : ModeSettings :=
  match m with
  | .basic_educational => ⟨30, true, true, "comprehensive"⟩
  | .exam_prep => ⟨20, false, false, "immediate"⟩
  | .challenge => ⟨15, false, false, "minimal"⟩
  | .fast_review => ⟨10, false, false, "none"⟩
  | .spaced_repetition => ⟨25, true, true, "adaptive"⟩

/-- A card dict as `_personalize_cards` and the reorderers touch it.
`last_reviewed_days` models the days elapsed since the `last_reviewed`
timestamp (the value `(now - fromisoformat(last_reviewed)).days` the code
computes), `none` meaning the key is absent. -/
structure PCard : Type where
  front : Option (List Char)
  back : Option (List Char)
  card_type : Option String
  tags : List String
  difficulty : Option String
  last_reviewed_days : Option Int
  priority : Option Int
  choices : Option (List (List Char))
  correct_answer : Option (List Char)
  simplified : Option Bool
  adjusted_difficulty : Option String
  mode_settings : Option ModeSettings
deriving DecidableEq

/-- A card with every optional key absent, used to build concrete cards. -/
def blankCard : PCard :=
  ⟨none, none, none, [], none, none, none, none, none, none, none, none⟩

/-- Transform `_convert_to_multiple_choice`: skip cards already of type
multiple_choice, else set choices to the shuffle of the correct answer and
three fixed distractors.  `shuffled` stands for the permutation
`random.shuffle` applies. -/
def convert_to_multiple_choice (shuffled : List (List Char) → List (List Char))
    (c : PCard) : PCard :=
  if c.card_type = some "multiple_choice" then c
  else
    { c with
      card_type := some "multiple_choice",
      choices := some (shuffled
        ([c.back.getD []] ++
         [String.toList "Alternative answer 1",
          String.toList "Alternative answer 2",
          String.toList "Alternative answer 3"])),
      correct_answer := some (c.back.getD []) }

/-- Transform `_convert_to_reverse_questioning`: swap front and back, with the
front prefixed by the fixed question phrase. -/
def convert_to_reverse_questioning (c : PCard) : PCard :=
  { c with
    front := some (String.toList "What question would have this answer: " ++
      c.back.getD []),
    back := some (c.front.getD []),
    card_type := some "reverse_questioning" }

/-- Transform `_simplify_for_fast_review`: truncate a front longer than 100
characters to its first 97 plus an ellipsis, a back longer than 150 to its
first 147 plus an ellipsis, and mark the card simplified. -/
def simplify_for_fast_review (c : PCard) : PCard :=
  let c1 :=
    if 100 < (c.front.getD []).length then
      { c with front := some ((c.front.getD []).take 97 ++ String.toList "...") }
    else c
  let c2 :=
    if 150 < (c1.back.getD []).length then
      { c1 with back := some ((c1.back.getD []).take 147 ++ String.toList "...") }
    else c1
  { c2 with simplified := some true }

/-- Priority `_apply_spaced_repetition_order` assigns: days since the last
review, or 999 for a card never reviewed. -/
def sr_priority (c : PCard) : Int :=
  match c.last_reviewed_days with
  | some d => d
  | none => 999

def set_priority (c : PCard) : PCard :=
  { c with priority := some (sr_priority c) }

/-- Sort key of the final `cards.sort(key=lambda x: x.get('priority', 0),
reverse=True)`. -/
def priority_key (c : PCard) : Int := c.priority.getD 0

/-- The function `_apply_spaced_repetition_order` (its profile argument is
unused): write each card's priority, then stable-sort descending by it. -/
def apply_spaced_repetition_order (cards : List PCard) : List PCard :=
  List.insertionSort (desc_by priority_key) (cards.map set_priority)

/-- Difficulty rank of `_apply_difficulty_progression`:
`difficulty_order.get(x.get('difficulty', 'medium'), 2)`. -/
def difficulty_rank (c : PCard) : Int :=
  match c.difficulty.getD "medium" with
  | "easy" => 1
  | "medium" => 2
  | "hard" => 3
  | _ => 2

/-- The function `_apply_difficulty_progression`: stable sort ascending by the
3-level difficulty rank. -/
def apply_difficulty_progression (cards : List PCard) : List PCard :=
  List.insertionSort (asc_by difficulty_rank) cards

/-! ### C8: fast-review truncation -/

theorem simplify_front_eq (c : PCard) :
    (simplify_for_fast_review c).front =
      if 100 < (c.front.getD []).length then
        some ((c.front.getD []).take 97 ++ String.toList "...")
      else c.front := by
  simp only [simplify_for_fast_review]
  split_ifs <;> rfl

theorem simplify_back_eq (c : PCard) :
    (simplify_for_fast_review c).back =
      if 150 < (c.back.getD []).length then
        some ((c.back.getD []).take 147 ++ String.toList "...")
      else c.back := by
  simp only [simplify_for_fast_review]
  split_ifs <;> rfl

/-- C8: in fast-review mode a front longer than 100 characters becomes its
first 97 characters plus an ellipsis (total length 100), a back longer than
150 becomes its first 147 plus an ellipsis (total length 150), and fronts and
backs at or under the limits are unchanged. -/
theorem simplify_fast_review_spec (c : PCard) (f b : List Char)
    (hf : c.front = some f) (hb : c.back = some b) :
    (100 < f.length →
       (simplify_for_fast_review c).front =
         some (f.take 97 ++ String.toList "...") ∧
       (f.take 97 ++ String.toList "...").length = 100) ∧
    (f.length ≤ 100 → (simplify_for_fast_review c).front = some f) ∧
    (150 < b.length →
       (simplify_for_fast_review c).back =
         some (b.take 147 ++ String.toList "...") ∧
       (b.take 147 ++ String.toList "...").length = 150) ∧
    (b.length ≤ 150 → (simplify_for_fast_review c).back = some b) := by
  have h3 : (String.toList "...").length = 3 := rfl
  refine ⟨fun h => ⟨?_, ?_⟩, fun h => ?_, fun h => ⟨?_, ?_⟩, fun h => ?_⟩
  · rw [simplify_front_eq, hf]
    simp only [Option.getD_some]
    rw [if_pos h]
  · rw [List.length_append, List.length_take, h3]
    omega
  · rw [simplify_front_eq, hf]
    simp only [Option.getD_some]
    rw [if_neg (not_lt.mpr h)]
  · rw [simplify_back_eq, hb]
    simp only [Option.getD_some]
    rw [if_pos h]
  · rw [List.length_append, List.length_take, h3]
    omega
  · rw [simplify_back_eq, hb]
    simp only [Option.getD_some]
    rw [if_neg (not_lt.mpr h)]

/-- Witness for C8: a card with a 120-character front and a 200-character
back. -/
theorem simplify_fast_review_spec_witness :
    (100 < (List.replicate 120 'a').length →
       (simplify_for_fast_review
          { blankCard with
            front := some (List.replicate 120 'a')
            back := some (List.replicate 200 'b') }).front =
         some ((List.replicate 120 'a').take 97 ++ String.toList "...") ∧
       ((List.replicate 120 'a').take 97 ++ String.toList "...").length = 100) ∧
    ((List.replicate 120 'a').length ≤ 100 →
       (simplify_for_fast_review
          { blankCard with
            front := some (List.replicate 120 'a')
            back := some (List.replicate 200 'b') }).front =
         some (List.replicate 120 'a')) ∧
    (150 < (List.replicate 200 'b').length →
       (simplify_for_fast_review
          { blankCard with
            front := some (List.replicate 120 'a')
            back := some (List.replicate 200 'b') }).back =
         some ((List.replicate 200 'b').take 147 ++ String.toList "...") ∧
       ((List.replicate 200 'b').take 147 ++ String.toList "...").length = 150) ∧
    ((List.replicate 200 'b').length ≤ 150 →
       (simplify_for_fast_review
          { blankCard with
            front := some (List.replicate 120 'a')
            back := some (List.replicate 200 'b') }).back =
         some (List.replicate 200 'b')) :=
  simplify_fast_review_spec
    { blankCard with
      front := some (List.replicate 120 'a')
      back := some (List.replicate 200 'b') }
    (List.replicate 120 'a') (List.replicate 200 'b') rfl rfl

/-! ### C4: spaced-repetition ordering -/

/-- C4 counterexample: a card last reviewed 1000 days ago gets priority 1000,
which outranks the 999 assigned to a never-reviewed card, so the reviewed card
is placed first — the never-reviewed card is not given maximal priority. -/
theorem spaced_repetition_stale_card_precedes_unseen :
    apply_spaced_repetition_order
      [{ blankCard with last_reviewed_days := some 1000 }, blankCard] =
      [{ blankCard with last_reviewed_days := some 1000, priority := some 1000 },
       { blankCard with priority := some 999 }] := by decide

theorem priority_key_of_mem {x : PCard} {cards : List PCard}
    (hx : x ∈ cards.map set_priority) : priority_key x = sr_priority x := by
  obtain ⟨c, _, rfl⟩ := List.mem_map.mp hx
  rfl

/-- C4 amended: the deck is stably sorted in descending order of an assigned
priority — days since last review for a reviewed card, the constant 999 for a
never-reviewed card — so a never-reviewed card precedes exactly the reviewed
cards whose days-since-review is below 999, not all of them.  Concretely: the
output is sorted descending by priority, is a permutation of the
priority-annotated input, and no reviewed card with fewer than 999 days since
review appears before a never-reviewed card. -/
theorem spaced_repetition_order_spec (cards : List PCard) :
    List.Sorted (desc_by priority_key) (apply_spaced_repetition_order cards) ∧
    (apply_spaced_repetition_order cards).Perm (cards.map set_priority) ∧
    (∀ i j (hi : i < (apply_spaced_repetition_order cards).length)
       (hj : j < (apply_spaced_repetition_order cards).length) (d : Int),
      i < j →
      ((apply_spaced_repetition_order cards).get ⟨i, hi⟩).last_reviewed_days =
        some d →
      d < 999 →
      ((apply_spaced_repetition_order cards).get ⟨j, hj⟩).last_reviewed_days ≠
        none) := by
  have hsorted : List.Sorted (desc_by priority_key)
      (apply_spaced_repetition_order cards) :=
    List.sorted_insertionSort (desc_by priority_key) (cards.map set_priority)
  have hperm : (apply_spaced_repetition_order cards).Perm
      (cards.map set_priority) :=
    List.perm_insertionSort (desc_by priority_key) (cards.map set_priority)
  refine ⟨hsorted, hperm, ?_⟩
  intro i j hi hj d hij hd hnone
  have hrel := hsorted.rel_get_of_lt (a := ⟨i, hi⟩) (b := ⟨j, hj⟩) hij
  have hmi : ((apply_spaced_repetition_order cards).get ⟨i, hi⟩) ∈
      cards.map set_priority :=
    hperm.mem_iff.mp (List.get_mem _ _ _)
  have hmj : ((apply_spaced_repetition_order cards).get ⟨j, hj⟩) ∈
      cards.map set_priority :=
    hperm.mem_iff.mp (List.get_mem _ _ _)
  have hki := priority_key_of_mem hmi
  have hkj := priority_key_of_mem hmj
  intro hjn
  unfold desc_by at hrel
  rw [hki, hkj] at hrel
  unfold sr_priority at hrel
  rw [hd, hjn] at hrel
  have h999 : (999 : Int) ≤ d := hrel
  omega

/-- Witness for the amended C4: a never-reviewed card and a card reviewed 5
days ago. -/
theorem spaced_repetition_order_spec_witness :
    List.Sorted (desc_by priority_key) (apply_spaced_repetition_order
      [blankCard, { blankCard with last_reviewed_days := some 5 }]) ∧
    (apply_spaced_repetition_order
      [blankCard, { blankCard with last_reviewed_days := some 5 }]).Perm
      ([blankCard, { blankCard with last_reviewed_days := some 5 }].map
        set_priority) ∧
    (∀ i j (hi : i < (apply_spaced_repetition_order
        [blankCard, { blankCard with last_reviewed_days := some 5 }]).length)
       (hj : j < (apply_spaced_repetition_order
        [blankCard, { blankCard with last_reviewed_days := some 5 }]).length)
       (d : Int),
      i < j →
      ((apply_spaced_repetition_order
        [blankCard, { blankCard with last_reviewed_days := some 5 }]).get
          ⟨i, hi⟩).last_reviewed_days = some d →
      d < 999 →
      ((apply_spaced_repetition_order
        [blankCard, { blankCard with last_reviewed_days := some 5 }]).get
          ⟨j, hj⟩).last_reviewed_days ≠ none) :=
  spaced_repetition_order_spec
    [blankCard, { blankCard with last_reviewed_days := some 5 }]

/-! ### update_user_profile

`session_data` is a `Dict[str, Any]`; its `mode` value may be a raw string, a
`StudyMode` member, or absent.  `preferred_modes` holds `StudyMode` members
only (its default and everything the code appends are members).  Python's
`x in list` uses equality, and a string never equals an enum member. -/

/-- A Python value stored under the `mode` key of `session_data`. -/
inductive PyVal : Type
  | pstr : String → PyVal
  | pmode : StudyMode → PyVal
deriving DecidableEq

/-- Python `StudyMode(x)` for a string `x`: the member with that value, or a
ValueError. -/
def str_to_mode (s : String) : Option StudyMode :=
  if s = "basic_educational" then some .basic_educational
  else if s = "exam_prep" then some .exam_prep
  else if s = "challenge" then some .challenge
  else if s = "fast_review" then some .fast_review
  else if s = "spaced_repetition" then some .spaced_repetition
  else none

/-- Python `StudyMode(x)`: a member maps to itself, a valid value string to
its member, anything else (including a missing `mode`, i.e. `None`) raises
ValueError. -/
def to_study_mode (v : Option PyVal) : Option StudyMode :=
  match v with
  | some (.pmode m) => some m
  | some (.pstr s) => str_to_mode s
  | none => none

/-- Python `session_data.get('mode') not in profile.preferred_modes`, negated:
the raw value is compared against the stored `StudyMode` members, so only a
member can ever test as present. -/
def mode_in_preferred (v : Option PyVal) (modes : List StudyMode) : Bool :=
  match v with
  | some (.pmode m) => modes.contains m
  | _ => false

/-- One element of `session_data['responses']`: the `correct` flag (read with
default False) and the tags of the attached card (absent card or tags read as
the empty list). -/
structure Response : Type where
  correct : Option Bool
  card_tags : List String
deriving DecidableEq

/-- The `session_data` dict as `update_user_profile` reads it. -/
structure SessionData : Type where
  mode : Option PyVal
  responses : List Response
  study_time : Option Int
deriving DecidableEq

/-- An entry of `performance_history` as `update_user_profile` writes it (the
`date` value, `datetime.now().isoformat()`, carries no information the claims
concern and is omitted). -/
structure PerfEntry : Type where
  mode : Option PyVal
  accuracy : ℚ
  total_cards : Nat
  study_time : Int
deriving DecidableEq

/-- The `PersonalizationProfile` dataclass. -/
structure Profile : Type where
  user_id : String
  preferred_modes : List StudyMode
  preferred_styles : List CardStyle
  difficulty_preference : String
  study_time_preference : Int
  performance_history : List PerfEntry
  learning_goals : List String
  weak_areas : List String
deriving DecidableEq

/-- The default profile `get_user_profile` creates. -/
def default_profile (uid : String) : Profile :=
  ⟨uid, [.basic_educational], [.definition_based], "medium", 30, [], [], []⟩

/-- Session accuracy: correct responses over total, 0 when there are no
responses (the division is guarded). -/
def session_accuracy (s : SessionData) : ℚ :=
  let total := s.responses.length
  let correct := (s.responses.filter (fun r => r.correct.getD false)).length
  if 0 < total then (correct : ℚ) / (total : ℚ) else 0

/-- The performance entry appended to the history. -/
def session_entry (s : SessionData) : PerfEntry :=
  ⟨s.mode, session_accuracy s, s.responses.length, s.study_time.getD 0⟩

/-- `weak_topics`: tags of the cards of incorrect responses, in order. -/
def incorrect_tags (s : SessionData) : List String :=
  (s.responses.filter (fun r => ! r.correct.getD false)).flatMap
    (fun r => r.card_tags)

/-- Keys of a `Counter` built from `l`, in insertion (first-occurrence) order. -/
def first_occurrences (l : List String) : List String :=
  l.foldl (fun acc t => if t ∈ acc then acc else acc ++ [t]) []

/-- The `Counter` items, in insertion order. -/
def tag_counts (l : List String) : List (String × Nat) :=
  (first_occurrences l).map (fun t => (t, l.count t))

/-- `Counter(l).most_common(5)` keys: items stable-sorted descending by count,
first five, keys only. -/
def most_common_5 (l : List String) : List String :=
  ((List.insertionSort (desc_by (fun p => (p.2 : Int)))
     (tag_counts l)).take 5).map Prod.fst

/-- The method `update_user_profile` on one profile.  The second component is
False when the call raises: when accuracy exceeds 0.8 and the session's mode
value is neither a stored member nor a valid value string, `StudyMode(...)`
raises ValueError after the history was appended but before the final
truncation to the last 30 entries. -/
def update_user_profile (p : Profile) (s : SessionData) : Profile × Bool :=
  let hist := p.performance_history ++ [session_entry s]
  let weak := most_common_5 (incorrect_tags s)
  if 4/5 < session_accuracy s then
    if mode_in_preferred s.mode p.preferred_modes then
      ({ p with
         performance_history := take_last 30 hist
         weak_areas := weak }, true)
    else
      match to_study_mode s.mode with
      | some m =>
        ({ p with
           performance_history := take_last 30 hist
           weak_areas := weak
           preferred_modes := p.preferred_modes ++ [m] }, true)
      | none =>
        ({ p with
           performance_history := hist
           weak_areas := weak }, false)
  else
    ({ p with
       performance_history := take_last 30 hist
       weak_areas := weak }, true)

/-! ### C3 and C6 -/

/-- A session with 17 of 20 correct responses (accuracy 0.85) and the given
mode value. -/
def session_85 (m : Option PyVal) : SessionData :=
  ⟨m, List.replicate 17 ⟨some true, []⟩ ++ List.replicate 3 ⟨some false, []⟩,
   none⟩

theorem session_85_accuracy (m : Option PyVal) :
    session_accuracy (session_85 m) = 17/20 := by
  simp [session_accuracy, session_85, List.filter_append, List.filter_replicate]

/-- C3: the membership guard compares the raw session mode value with the
stored `StudyMode` members, and a string never equals a member; so with the
mode given as the string "challenge" — as in the specified scenario — the mode
is appended even when already present, producing a duplicate (first conjunct),
while the scenario itself (mode not yet present) does append as described
(second conjunct). -/
theorem preferred_modes_duplicate_append :
    ((update_user_profile
       { default_profile "u" with
         preferred_modes := [.basic_educational, .challenge] }
       (session_85 (some (.pstr "challenge")))).1.preferred_modes =
      [.basic_educational, .challenge, .challenge]) ∧
    ((update_user_profile (default_profile "u")
       (session_85 (some (.pstr "challenge")))).1.preferred_modes =
      [.basic_educational, .challenge]) := by
  constructor <;>
  · unfold update_user_profile
    rw [session_85_accuracy, if_pos (by norm_num : (4:ℚ)/5 < 17/20)]
    try decide

/-- Helper: in every non-raising branch the new history is the last-30 slice
of the old history plus the new entry. -/
theorem update_history_of_ok (p : Profile) (s : SessionData)
    (hok : (update_user_profile p s).2 = true) :
    (update_user_profile p s).1.performance_history =
      take_last 30 (p.performance_history ++ [session_entry s]) := by
  unfold update_user_profile at hok ⊢
  split_ifs at hok ⊢ with h1 h2
  · rfl
  · rcases hm : to_study_mode s.mode with _ | m
    · rw [hm] at hok
      simp at hok
    · rfl
  · rfl

/-- C6 amended: after every call of `update_user_profile` that completes
without raising, the history is the last-30 slice of the appended history
(hence has length at most 30, the oldest entries evicted); a call that raises
ValueError (accuracy above 0.8 with an invalid mode value) exits after the
append and before the truncation. -/
theorem update_history_bound (p : Profile) (s : SessionData)
    (hok : (update_user_profile p s).2 = true) :
    (update_user_profile p s).1.performance_history =
      take_last 30 (p.performance_history ++ [session_entry s]) ∧
    (update_user_profile p s).1.performance_history.length ≤ 30 := by
  have h := update_history_of_ok p s hok
  refine ⟨h, ?_⟩
  rw [h]
  exact take_last_length_le 30 _

/-- Witness for the amended C6: a low-accuracy session on a profile with 30
stored entries. -/
theorem update_history_bound_witness :
    ((update_user_profile
        { default_profile "u" with
          performance_history := List.replicate 30 ⟨none, 0, 0, 0⟩ }
        ⟨none, [⟨some false, []⟩], none⟩).1.performance_history =
      take_last 30 ((List.replicate 30 (⟨none, 0, 0, 0⟩ : PerfEntry)) ++
        [session_entry ⟨none, [⟨some false, []⟩], none⟩])) ∧
    ((update_user_profile
        { default_profile "u" with
          performance_history := List.replicate 30 ⟨none, 0, 0, 0⟩ }
        ⟨none, [⟨some false, []⟩], none⟩).1.performance_history.length ≤ 30) :=
  update_history_bound
    { default_profile "u" with
      performance_history := List.replicate 30 ⟨none, 0, 0, 0⟩ }
    ⟨none, [⟨some false, []⟩], none⟩
    (by
      unfold update_user_profile
      rw [if_neg]
      simp [session_accuracy]
      norm_num)

/-- C6 counterexample: a profile holding 30 history entries updated with a
perfect-accuracy session whose mode is absent: `StudyMode(None)` raises after
the append, so the history is left at 31 entries, breaking the ≤ 30 invariant. -/
theorem update_history_overflow :
    ((update_user_profile
        { default_profile "u" with
          performance_history := List.replicate 30 ⟨none, 0, 0, 0⟩ }
        ⟨none, [⟨some true, []⟩], none⟩).1.performance_history.length = 31) ∧
    ((update_user_profile
        { default_profile "u" with
          performance_history := List.replicate 30 ⟨none, 0, 0, 0⟩ }
        ⟨none, [⟨some true, []⟩], none⟩).2 = false) := by
  have hacc : session_accuracy ⟨none, [⟨some true, []⟩], none⟩ = 1 := by
    simp [session_accuracy]
  constructor <;>
  · unfold update_user_profile
    rw [hacc, if_pos (by norm_num : (4:ℚ)/5 < 1)]
    simp [mode_in_preferred, to_study_mode, take_last]

/-! ### C10: weak areas -/

theorem mem_foldl_first_occ (l : List String) : ∀ (acc : List String) (t : String),
    (t ∈ l.foldl (fun acc t => if t ∈ acc then acc else acc ++ [t]) acc) ↔
      (t ∈ acc ∨ t ∈ l) := by
  induction l with
  | nil => intro acc t; simp
  | cons x xs ih =>
    intro acc t
    rw [List.foldl_cons, ih]
    by_cases hx : x ∈ acc
    · rw [if_pos hx]
      simp only [List.mem_cons]
      constructor
      · rintro (h | h)
        · exact Or.inl h
        · exact Or.inr (Or.inr h)
      · rintro (h | rfl | h)
        · exact Or.inl h
        · exact Or.inl hx
        · exact Or.inr h
    · rw [if_neg hx]
      simp only [List.mem_append, List.mem_singleton, List.mem_cons]
      tauto

theorem mem_first_occurrences {t : String} {l : List String} :
    t ∈ first_occurrences l ↔ t ∈ l := by
  unfold first_occurrences
  rw [mem_foldl_first_occ]
  simp

theorem tag_counts_mem {l : List String} {t : String} (h : t ∈ l) :
    (t, l.count t) ∈ tag_counts l :=
  List.mem_map.mpr ⟨t, mem_first_occurrences.mpr h, rfl⟩

theorem tag_counts_snd {l : List String} {pr : String × Nat}
    (h : pr ∈ tag_counts l) : pr.2 = l.count pr.1 := by
  obtain ⟨t, _, rfl⟩ := List.mem_map.mp h
  rfl

theorem tag_counts_fst_mem {l : List String} {pr : String × Nat}
    (h : pr ∈ tag_counts l) : pr.1 ∈ l := by
  obtain ⟨t, ht, rfl⟩ := List.mem_map.mp h
  exact mem_first_occurrences.mp ht

theorem most_common_5_length (l : List String) :
    (most_common_5 l).length ≤ 5 := by
  unfold most_common_5
  rw [List.length_map]
  exact le_trans (List.length_take_le 5 _) (le_refl 5)

theorem most_common_5_mem {l : List String} {t : String}
    (h : t ∈ most_common_5 l) : t ∈ l := by
  obtain ⟨pr, hpr, rfl⟩ := List.mem_map.mp h
  exact tag_counts_fst_mem
    ((List.mem_insertionSort (desc_by (fun p => (p.2 : Int)))).mp
      (List.mem_of_mem_take hpr))

theorem most_common_5_dominant {l : List String} {t u : String}
    (ht : t ∈ most_common_5 l) (hu : u ∈ l) (hun : u ∉ most_common_5 l) :
    l.count u ≤ l.count t := by
  classical
  set r : String × Nat → String × Nat → Prop := desc_by (fun p => (p.2 : Int)) with hr
  set sorted := List.insertionSort r (tag_counts l) with hsorted
  obtain ⟨prt, hprt, rfl⟩ := List.mem_map.mp ht
  have hpru : (u, l.count u) ∈ sorted :=
    (List.mem_insertionSort r).mpr (tag_counts_mem hu)
  have hprun : (u, l.count u) ∉ sorted.take 5 := by
    intro hin
    exact hun (List.mem_map.mpr ⟨(u, l.count u), hin, rfl⟩)
  have hdrop : (u, l.count u) ∈ sorted.drop 5 := by
    rcases List.mem_append.mp ((List.take_append_drop 5 sorted) ▸ hpru) with h | h
    · exact absurd h hprun
    · exact h
  have hpair : List.Pairwise r (sorted.take 5 ++ sorted.drop 5) := by
    rw [List.take_append_drop]
    exact List.sorted_insertionSort r (tag_counts l)
  have hcross := (List.pairwise_append.mp hpair).2.2
  have hrel := hcross prt hprt (u, l.count u) hdrop
  rw [hr] at hrel
  unfold desc_by at hrel
  have hsnd : prt.2 = l.count prt.1 :=
    tag_counts_snd ((List.mem_insertionSort r).mp (List.mem_of_mem_take hprt))
  have hrel2 : ((l.count u : Nat) : Int) ≤ (prt.2 : Int) := hrel
  have : (l.count u : Int) ≤ (l.count prt.1 : Int) := by
    rw [← hsnd]
    exact hrel2
  exact_mod_cast this

theorem most_common_5_complete {l : List String}
    (hlen : (tag_counts l).length ≤ 5) {u : String} (hu : u ∈ l) :
    u ∈ most_common_5 l := by
  have hslen : (List.insertionSort (desc_by (fun p : String × Nat => (p.2 : Int)))
      (tag_counts l)).length ≤ 5 := by
    rw [(List.perm_insertionSort _ (tag_counts l)).length_eq]
    exact hlen
  unfold most_common_5
  rw [List.take_of_length_le hslen]
  exact List.mem_map.mpr
    ⟨(u, l.count u), (List.mem_insertionSort _).mpr (tag_counts_mem hu), rfl⟩

/-- Helper: the updated profile's weak areas are the most-common-5 of the
incorrect tags of the session, in every branch of the update. -/
theorem update_weak_areas_eq (p : Profile) (s : SessionData) :
    (update_user_profile p s).1.weak_areas =
      most_common_5 (incorrect_tags s) := by
  unfold update_user_profile
  split_ifs
  · rfl
  · rcases hm : to_study_mode s.mode with _ | m <;> rfl
  · rfl

/-- C10: after `update_user_profile`, `weak_areas` is determined by the
session alone (previously accumulated weak areas are discarded), holds at most
5 tags, each drawn from the incorrect responses of the session, each at least
as frequent there as any tag left out, and with no tag left out when at most 5
distinct tags occur; a session with no responses yields accuracy 0 (the
division is guarded) and an empty `weak_areas`. -/
theorem weak_areas_from_session (p q : Profile) (s : SessionData) :
    ((update_user_profile p s).1.weak_areas =
      (update_user_profile q s).1.weak_areas) ∧
    ((update_user_profile p s).1.weak_areas.length ≤ 5) ∧
    (∀ t ∈ (update_user_profile p s).1.weak_areas, t ∈ incorrect_tags s) ∧
    (∀ t ∈ (update_user_profile p s).1.weak_areas, ∀ u ∈ incorrect_tags s,
       u ∉ (update_user_profile p s).1.weak_areas →
       (incorrect_tags s).count u ≤ (incorrect_tags s).count t) ∧
    ((tag_counts (incorrect_tags s)).length ≤ 5 →
       ∀ u ∈ incorrect_tags s, u ∈ (update_user_profile p s).1.weak_areas) ∧
    (s.responses = [] → session_accuracy s = 0 ∧
       (update_user_profile p s).1.weak_areas = []) := by
  rw [update_weak_areas_eq p s, update_weak_areas_eq q s]
  refine ⟨rfl, most_common_5_length _, fun t ht => most_common_5_mem ht,
    fun t ht u hu hun => most_common_5_dominant ht hu hun,
    fun hlen u hu => most_common_5_complete hlen hu, fun hresp => ⟨?_, ?_⟩⟩
  · simp [session_accuracy, hresp]
  · simp [incorrect_tags, hresp, most_common_5, tag_counts, first_occurrences]

/-- Witness for C10: two distinct profiles and a session with two incorrect
responses tagged algebra/geometry. -/
theorem weak_areas_from_session_witness :
    ((update_user_profile (default_profile "u")
        ⟨none, [⟨some false, ["algebra", "geometry"]⟩, ⟨some false, ["algebra"]⟩],
         none⟩).1.weak_areas =
      (update_user_profile (default_profile "v")
        ⟨none, [⟨some false, ["algebra", "geometry"]⟩, ⟨some false, ["algebra"]⟩],
         none⟩).1.weak_areas) ∧
    ((update_user_profile (default_profile "u")
        ⟨none, [⟨some false, ["algebra", "geometry"]⟩, ⟨some false, ["algebra"]⟩],
         none⟩).1.weak_areas.length ≤ 5) ∧
    (∀ t ∈ (update_user_profile (default_profile "u")
        ⟨none, [⟨some false, ["algebra", "geometry"]⟩, ⟨some false, ["algebra"]⟩],
         none⟩).1.weak_areas,
       t ∈ incorrect_tags
        ⟨none, [⟨some false, ["algebra", "geometry"]⟩, ⟨some false, ["algebra"]⟩],
         none⟩) ∧
    (∀ t ∈ (update_user_profile (default_profile "u")
        ⟨none, [⟨some false, ["algebra", "geometry"]⟩, ⟨some false, ["algebra"]⟩],
         none⟩).1.weak_areas,
       ∀ u ∈ incorrect_tags
        ⟨none, [⟨some false, ["algebra", "geometry"]⟩, ⟨some false, ["algebra"]⟩],
         none⟩,
       u ∉ (update_user_profile (default_profile "u")
        ⟨none, [⟨some false, ["algebra", "geometry"]⟩, ⟨some false, ["algebra"]⟩],
         none⟩).1.weak_areas →
       (incorrect_tags
        ⟨none, [⟨some false, ["algebra", "geometry"]⟩, ⟨some false, ["algebra"]⟩],
         none⟩).count u ≤
       (incorrect_tags
        ⟨none, [⟨some false, ["algebra", "geometry"]⟩, ⟨some false, ["algebra"]⟩],
         none⟩).count t) ∧
    ((tag_counts (incorrect_tags
        ⟨none, [⟨some false, ["algebra", "geometry"]⟩, ⟨some false, ["algebra"]⟩],
         none⟩)).length ≤ 5 →
       ∀ u ∈ incorrect_tags
        ⟨none, [⟨some false, ["algebra", "geometry"]⟩, ⟨some false, ["algebra"]⟩],
         none⟩,
       u ∈ (update_user_profile (default_profile "u")
        ⟨none, [⟨some false, ["algebra", "geometry"]⟩, ⟨some false, ["algebra"]⟩],
         none⟩).1.weak_areas) ∧
    ((⟨none, [⟨some false, ["algebra", "geometry"]⟩, ⟨some false, ["algebra"]⟩],
       none⟩ : SessionData).responses = [] →
       session_accuracy
        ⟨none, [⟨some false, ["algebra", "geometry"]⟩, ⟨some false, ["algebra"]⟩],
         none⟩ = 0 ∧
       (update_user_profile (default_profile "u")
        ⟨none, [⟨some false, ["algebra", "geometry"]⟩, ⟨some false, ["algebra"]⟩],
         none⟩).1.weak_areas = []) :=
  weak_areas_from_session (default_profile "u") (default_profile "v")
    ⟨none, [⟨some false, ["algebra", "geometry"]⟩, ⟨some false, ["algebra"]⟩],
     none⟩

/-! ### C9: _personalize_cards leaves the caller's cards untouched

Python dicts are mutable, so the frame property is stated over an explicit
heap: the caller's card dicts occupy positions 0..n-1 of a list of cells, and
a reference is a position.  The code's `card.copy()` allocates a fresh cell
(appended at the end of the heap); every per-card transform and the
weak-area adjustment write to the fresh cell, and the mode-dependent
reordering (`_apply_spaced_repetition_order` writes priorities to the fresh
cells and sorts the session's list; `_apply_difficulty_progression` just
sorts) permutes only the list of fresh references that
`create_personalized_session` stores in the new session. -/

/-- The per-card pipeline of `_personalize_cards`, applied to the fresh copy
of one card: the mode transform, the `mode_settings` assignment, and the
weak-area difficulty adjustment (which tests the profile's weak areas against
the card's tags, Python list truthiness first). -/
def transform_card (shuffled : List (List Char) → List (List Char))
    (mode : StudyMode) (weak_areas : List String) (c : PCard) : PCard :=
  let c1 :=
    match mode with
    | .exam_prep => convert_to_multiple_choice shuffled c
    | .challenge => convert_to_reverse_questioning c
    | .fast_review => simplify_for_fast_review c
    | _ => c
  let ms := mode_settings_of mode
  let c2 := { c1 with mode_settings := some ms }
  if !weak_areas.isEmpty && weak_areas.any (fun a => c.tags.contains a) then
    { c2 with
      adjusted_difficulty := some "easier"
      mode_settings := some ⟨ms.time_limit + 10, true, ms.allow_retries,
        ms.feedback_detail⟩ }
  else c2

/-- Heap-level `_personalize_cards`: each input reference's cell is copied and
transformed into a fresh cell appended after the existing heap; the returned
references (the new session's cards) are the fresh ones, reordered by mode.
For spaced repetition the fresh cells additionally receive their priority. -/
def personalize_cards_heap (shuffled : List (List Char) → List (List Char))
    (mode : StudyMode) (weak_areas : List String)
    (heap : List PCard) (refs : List Nat) : List PCard × List Nat :=
  let cells := refs.map
    (fun r => transform_card shuffled mode weak_areas (heap.getD r blankCard))
  let base := heap.length
  match mode with
  | .spaced_repetition =>
    let cellsP := cells.map set_priority
    let idx := List.insertionSort
      (desc_by (fun i => priority_key (cellsP.getD i blankCard)))
      (List.range cellsP.length)
    (heap ++ cellsP, idx.map (fun i => i + base))
  | .challenge =>
    let idx := List.insertionSort
      (asc_by (fun i => difficulty_rank (cells.getD i blankCard)))
      (List.range cells.length)
    (heap ++ cells, idx.map (fun i => i + base))
  | _ => (heap ++ cells, (List.range cells.length).map (fun i => i + base))

/-- C9: `_personalize_cards` (as called by `create_personalized_session`) only
appends fresh cells to the heap — every pre-existing cell, in particular every
card dict of the caller, is unchanged — and the session's card references all
point at the fresh cells. -/
theorem personalize_cards_frame (shuffled : List (List Char) → List (List Char))
    (mode : StudyMode) (weak_areas : List String)
    (heap : List PCard) (refs : List Nat) :
    (∃ tail, (personalize_cards_heap shuffled mode weak_areas heap refs).1 =
       heap ++ tail) ∧
    (∀ r ∈ (personalize_cards_heap shuffled mode weak_areas heap refs).2,
       heap.length ≤ r) := by
  cases mode <;>
  · refine ⟨⟨_, rfl⟩, ?_⟩
    intro r hr
    obtain ⟨i, _, rfl⟩ := List.mem_map.mp hr
    omega

/-- Witness for C9 at a concrete heap of two cards and a challenge-mode
session over both. -/
theorem personalize_cards_frame_witness :
    (∃ tail, (personalize_cards_heap id StudyMode.challenge []
       [blankCard, { blankCard with difficulty := some "easy" }] [0, 1]).1 =
       [blankCard, { blankCard with difficulty := some "easy" }] ++ tail) ∧
    (∀ r ∈ (personalize_cards_heap id StudyMode.challenge []
       [blankCard, { blankCard with difficulty := some "easy" }] [0, 1]).2,
       [blankCard, { blankCard with difficulty := some "easy" }].length ≤ r) :=
  personalize_cards_frame id StudyMode.challenge []
    [blankCard, { blankCard with difficulty := some "easy" }] [0, 1]
